import Mathlib

/-!
Verification development for the Hey-It image-generation orchestrator.

The definitions below are a shallow embedding of the orchestration layer of
the application: the gallery data model (`ImageItem`, `ImageGroup`), the
task-queue reconciliation performed by `processQueue` on gateway success and
failure, the synthetic progress estimator, the prompt-translation fallback,
the gallery/trash mutations, and the VIP batch runner.  External effects
(network, timers, persistence) are modelled by passing their outcomes as
explicit arguments; React state updates become pure functions from state to
state, and the value captured by a JavaScript closure at invocation time is
passed explicitly as a frozen argument.
-/

set_option maxRecDepth 16000

namespace HeyIt

/-- Lifecycle status of a gallery `ImageItem` (source: the `status` union in
the `ImageItem` interface). -/
inductive ImageStatus
  | queued
  | generating
  | completed
  | failed
deriving DecidableEq, Repr

/-- Aspect ratios offered by the UI (source: `type AspectRatio`). -/
inductive AspectRatio
  | r16x9
  | r3x2
  | r9x16
deriving DecidableEq, Repr

/-- Tracked record of one requested image slot (source: `interface ImageItem`).
Progress is a rational number standing for the JavaScript number. -/
structure ImageItem where
  id : String
  name : String
  status : ImageStatus
  url : Option String := none
  progress : Option ℚ := none
  taskId : Option String := none
  styleDescription : String := ""
  contentPrompt : String := ""
  error : Option String := none
deriving DecidableEq, Repr

/-- Date-bucketed ordered collection of items (source: `interface ImageGroup`). -/
structure ImageGroup where
  date : String
  images : List ImageItem
deriving DecidableEq, Repr

/-- A queued generation request (source: `interface Task`).  Reference image
payloads are irrelevant to the claims and are omitted. -/
structure Task where
  id : String
  contentPrompt : String
  numImages : ℕ
  aspectRatio : AspectRatio
  styleDescription : Option String := none
deriving DecidableEq, Repr

/-- Aspect-ratio mapping of the text-only path (source: `mapAspectRatio`
inside `generateStyledImages`).  The function in the source has an
unreachable default branch returning 16:9 because the union type is already
exhausted by the three cases. -/
def mapAspectRatio : AspectRatio → String
  | AspectRatio.r16x9 => "16:9"
  | AspectRatio.r9x16 => "9:16"
  | AspectRatio.r3x2 => "4:3"

/-- Configuration object sent to the backend by the text-only path (source:
the `config` literal of the `ai.models.generateImages` call). -/
structure GenerateImagesConfig where
  numberOfImages : ℕ
  outputMimeType : String
  aspectRatio : String
deriving DecidableEq, Repr

/-- Request configuration built by the text-only branch of
`generateStyledImages`. -/
def generateImagesConfig (numberOfImages : ℕ) (ar : AspectRatio) : GenerateImagesConfig :=
  { numberOfImages := numberOfImages
    outputMimeType := "image/jpeg"
    aspectRatio := mapAspectRatio ar }

/-- Error message thrown by `generateStyledImages` when no artifact was
produced (both paths use the same message). -/
def noArtifactMsg : String :=
  "AI模型未能生成任何图片。这可能是由于安全设置或请求无效。"

/-- Reference-image path of `generateStyledImages`: each backend call either
yields an artifact data URL or nothing; the collected artifacts are returned,
and the call throws when every per-image call came back empty (source:
`generateStyledImages`, path 1). -/
def generateStyledImagesRef (callResults : List (Option String)) :
    Except String (List String) :=
  let generatedImages := callResults.filterMap id
  if generatedImages.isEmpty then Except.error noArtifactMsg
  else Except.ok generatedImages

/-- Text-only path of `generateStyledImages`: the backend returns a list of
image byte payloads; an empty list is reported as a failure (source:
`generateStyledImages`, path 2). -/
def generateStyledImagesText (generatedImages : List String) :
    Except String (List String) :=
  if generatedImages.isEmpty then Except.error noArtifactMsg
  else Except.ok (generatedImages.map (fun b => "data:image/jpeg;base64," ++ b))

/-- Placeholder items created by `enqueueTask` for a task requesting
`numImages` images. -/
def placeholderImages (taskId : String) (numImages : ℕ) (contentPrompt : String) :
    List ImageItem :=
  (List.range numImages).map fun i =>
    { id := taskId ++ "-" ++ toString i
      name := "生成中..."
      status := ImageStatus.queued
      taskId := some taskId
      styleDescription := ""
      contentPrompt := contentPrompt }

/-- Insertion used by `enqueueTask`, `handleRestoreImage` and
`addInpaintedImage`: find the first group with the given date label and
unshift the new items at its head, otherwise prepend a fresh group. -/
def prependAtDate (dateString : String) (imgs : List ImageItem)
    (groups : List ImageGroup) : List ImageGroup :=
  match groups.findIdx? (fun g => decide (g.date = dateString)) with
  | some i => groups.modify (fun g => { g with images := imgs ++ g.images }) i
  | none => { date := dateString, images := imgs } :: groups

/-- Gallery effect of `enqueueTask`: the placeholders are inserted at the
head of today's group. -/
def enqueueTaskGroups (dateString : String) (task : Task)
    (groups : List ImageGroup) : List ImageGroup :=
  prependAtDate dateString (placeholderImages task.id task.numImages task.contentPrompt) groups

/-- Update applied by `updateImageStatus(task_id, updates)`: every item
carrying the task id is mapped through the partial update. -/
def updateItems (t : String) (f : ImageItem → ImageItem)
    (groups : List ImageGroup) : List ImageGroup :=
  groups.map fun g =>
    { g with images := g.images.map fun img => if img.taskId = some t then f img else img }

/-- Transition performed by `startProgress`: all items of the task become
generating with progress 0. -/
def startGeneratingTask (t : String) (groups : List ImageGroup) : List ImageGroup :=
  updateItems t (fun img => { img with status := ImageStatus.generating, progress := some 0 }) groups

/-- Failure handler of `processQueue`: every item of the task is marked
failed with the shared error message. -/
def failTask (t err : String) (groups : List ImageGroup) : List ImageGroup :=
  updateItems t (fun img => { img with status := ImageStatus.failed, error := some err }) groups

/-- Progress write used by `stopProgress` (first `progress := 100`, then,
after the decay delay, `progress := undefined`). -/
def setProgressTask (t : String) (p : Option ℚ) (groups : List ImageGroup) : List ImageGroup :=
  updateItems t (fun img => { img with progress := p }) groups

/-- All gallery images in display order. -/
def allImages (groups : List ImageGroup) : List ImageItem :=
  (groups.map ImageGroup.images).flatten

/-- Display name computed in the success branch of `processQueue` from the
task's content prompt. -/
def taskDisplayName (contentPrompt : String) : String :=
  if 40 < contentPrompt.length then (contentPrompt.take 40) ++ "..." else contentPrompt

/-- Completed item produced when an artifact is paired with a placeholder in
the success branch of `processQueue`. -/
def completeImage (task : Task) (finalStyleDesc : String) (img : ImageItem)
    (newImageData : String) : ImageItem :=
  { img with
    status := ImageStatus.completed
    url := some newImageData
    styleDescription := finalStyleDesc
    name := taskDisplayName task.contentPrompt }

/-- JavaScript `Array.prototype.pop`: remove and return the last element. -/
def popLast (xs : List String) : Option String × List String :=
  match xs.getLast? with
  | some x => (some x, xs.dropLast)
  | none => (none, xs)

/-- One step of the success reconciliation of `processQueue`: an item of the
task consumes the tail of the mutable results array (`newImages.pop()`), and
becomes completed when an artifact was obtained; other items pass through. -/
def assignArtifact (task : Task) (finalStyleDesc : String) (img : ImageItem)
    (newImages : List String) : ImageItem × List String :=
  if img.taskId = some task.id then
    match popLast newImages with
    | (some newImageData, rest) => (completeImage task finalStyleDesc img newImageData, rest)
    | (none, rest) => (img, rest)
  else (img, newImages)

/-- The success reconciliation mapped over one image list, threading the
shared mutable results array. -/
def assignArtifacts (task : Task) (finalStyleDesc : String) :
    List ImageItem → List String → List ImageItem × List String
  | [], newImages => ([], newImages)
  | img :: imgs, newImages =>
    let p := assignArtifact task finalStyleDesc img newImages
    let q := assignArtifacts task finalStyleDesc imgs p.2
    (p.1 :: q.1, q.2)

/-- Filter applied to each group after the success mapping (source:
`.filter(img => img.status !== 'generating')`). -/
def notGenerating (img : ImageItem) : Bool :=
  decide (img.status ≠ ImageStatus.generating)

/-- Success reconciliation of one group: map the images, then drop the
still-generating leftovers. -/
def reconcileGroup (task : Task) (finalStyleDesc : String) (g : ImageGroup)
    (newImages : List String) : ImageGroup × List String :=
  let p := assignArtifacts task finalStyleDesc g.images newImages
  ({ g with images := p.1.filter notGenerating }, p.2)

/-- Success branch of `processQueue` over the whole gallery: groups are
mapped in order while the results array is consumed across groups. -/
def applySuccess (task : Task) (finalStyleDesc : String) :
    List ImageGroup → List String → List ImageGroup
  | [], _ => []
  | g :: gs, newImages =>
    let p := reconcileGroup task finalStyleDesc g newImages
    p.1 :: applySuccess task finalStyleDesc gs p.2

/-- Full gallery effect of a successful task: the success reconciliation
followed by `stopProgress` (progress set to 100, then cleared after the
decay delay). -/
def finishTaskSuccess (task : Task) (finalStyleDesc : String)
    (groups : List ImageGroup) (newImages : List String) : List ImageGroup :=
  setProgressTask task.id none
    (setProgressTask task.id (some 100) (applySuccess task finalStyleDesc groups newImages))

/-- Full gallery effect of a failed task: the failure marking followed by
`stopProgress`. -/
def finishTaskFailure (t err : String) (groups : List ImageGroup) : List ImageGroup :=
  setProgressTask t none (setProgressTask t (some 100) (failTask t err groups))

/-- One tick of the synthetic progress estimator (source: the interval body
installed by `startProgress`): while the item belongs to the task, is
generating and its progress is below 95, it advances by
`max 1 ((95 - current) / 15)` clamped to 95. -/
def progressTick (t : String) (img : ImageItem) : ImageItem :=
  if img.taskId = some t ∧ img.status = ImageStatus.generating ∧ img.progress.getD 0 < 95 then
    { img with
      progress := some (min (img.progress.getD 0 + max 1 ((95 - img.progress.getD 0) / 15)) 95) }
  else img

/-- Pure numeric core of one progress tick. -/
def tickAmount (p : ℚ) : ℚ :=
  if p < 95 then min (p + max 1 ((95 - p) / 15)) 95 else p

/-- Batch translation endpoint wrapper (source: `translatePromptsToEnglish`).
The gateway response is modelled as the list obtained by splitting the
returned text on the sentinel separator.  An empty prompt list returns
immediately; a cardinality mismatch falls back to the original prompts. -/
def translatePromptsToEnglish (prompts : List String)
    (translatedPrompts : List String) : List String :=
  if prompts.isEmpty then []
  else if translatedPrompts.length ≠ prompts.length then prompts
  else translatedPrompts

/-- JavaScript `a || b` on strings: the empty string and `undefined` are
falsy and select the fallback. -/
def jsOrElse (t : Option String) (fallback : String) : String :=
  match t with
  | some s => if s = "" then fallback else s
  | none => fallback

/-- Prompt rewrite of `handleTranslateAll` in VipMode: task `i` receives
`translatedPrompts[i] || originalPrompts[i]`. -/
def handleTranslateAll (prompts : List String) (translatedResponse : List String) :
    List String :=
  (List.range prompts.length).map fun i =>
    jsOrElse (translatePromptsToEnglish prompts translatedResponse)[i]? (prompts.getD i "")

/-- Addition to the trash performed by `handleDeleteImage`: the deleted item
is unshifted into every trash group labelled with today's deletion date, or
a fresh group is prepended when none exists.  The source uses `find` to test
existence and then maps over all groups with a matching date. -/
def addToTrash (dateString : String) (img : ImageItem) (trash : List ImageGroup) :
    List ImageGroup :=
  if trash.any (fun g => decide (g.date = dateString)) then
    trash.map fun g =>
      if g.date = dateString then { g with images := img :: g.images } else g
  else { date := dateString, images := [img] } :: trash

/-- Gallery deletion (source: `handleDeleteImage`).  The image at the given
indices is captured while being filtered out of its group, groups left empty
are pruned, and the captured image, when one exists, is moved to the trash. -/
def handleDeleteImage (gallery trash : List ImageGroup) (groupIdx imageIdx : ℕ)
    (dateString : String) : List ImageGroup × List ImageGroup :=
  let imageToMove := gallery[groupIdx]?.bind fun g => g.images[imageIdx]?
  let newImageGroups :=
    (gallery.mapIdx fun gIdx g =>
        if gIdx = groupIdx then { g with images := g.images.eraseIdx imageIdx } else g).filter
      fun g => decide (0 < g.images.length)
  match imageToMove with
  | some img => (newImageGroups, addToTrash dateString img trash)
  | none => (newImageGroups, trash)

/-- Trash restoration (source: `handleRestoreImage`).  The inverse of
deletion: the captured item is removed from its trash group (empty groups
pruned) and unshifted at the head of today's gallery group. -/
def handleRestoreImage (gallery trash : List ImageGroup) (trashGroupIdx imageIdx : ℕ)
    (dateString : String) : List ImageGroup × List ImageGroup :=
  let imageToRestore := trash[trashGroupIdx]?.bind fun g => g.images[imageIdx]?
  let newTrash :=
    (trash.mapIdx fun gIdx g =>
        if gIdx = trashGroupIdx then { g with images := g.images.eraseIdx imageIdx } else g).filter
      fun g => decide (0 < g.images.length)
  match imageToRestore with
  | some img => (prependAtDate dateString [img] gallery, newTrash)
  | none => (gallery, newTrash)

/-- Permanent deletion from the trash (source: `handlePermanentlyDeleteImage`). -/
def handlePermanentlyDeleteImage (trash : List ImageGroup) (trashGroupIdx imageIdx : ℕ) :
    List ImageGroup :=
  (trash.mapIdx fun gIdx g =>
      if gIdx = trashGroupIdx then { g with images := g.images.eraseIdx imageIdx } else g).filter
    fun g => decide (0 < g.images.length)

/-- Collection invariant stated in the spec: no group has an empty image
list. -/
def noEmptyGroups (groups : List ImageGroup) : Prop :=
  ∀ g ∈ groups, g.images ≠ []

/-- Status of a VIP batch sub-job (source: the `status` union in
`interface VipTask`). -/
inductive VipStatus
  | pending
  | generating
  | completed
  | failed
deriving DecidableEq, Repr

/-- VIP batch sub-job (source: `interface VipTask`). -/
structure VipTask where
  id : ℕ
  name : String
  prompt : String
  status : VipStatus
  imageUrl : Option String := none
  error : Option String := none
deriving DecidableEq, Repr

/-- State update used throughout VipMode: map the task carrying the given id
through the update (source: the `setTasks(prev => prev.map(...))` calls). -/
def setTaskById (taskId : ℕ) (f : VipTask → VipTask) (tasks : List VipTask) :
    List VipTask :=
  tasks.map fun t => if t.id = taskId then f t else t

/-- The VIP task list produced by `handleAnalyze` from the analyzed prompts:
ids are positional, every task starts pending. -/
def analyzedTasks (ps : List (String × String)) : List VipTask :=
  ps.mapIdx fun i p => { id := i, name := p.1, prompt := p.2, status := VipStatus.pending }

/-- The batch loop of `processGenerationQueue` from index `i` (source: the
`for` loop).  `isPausedC` and `tasksC` are the values captured by the
JavaScript closure when the invocation was created: a later click on the
pause button rebinds the component's `isPaused` for future renders but never
changes the binding this running invocation reads, so both pause checks see
the frozen value.  `gw i` is the outcome of the gateway call for index `i`.
The result is the final task list together with the value left in
`generationIndexRef` and the final `isGenerating` flag. -/
def runBatchFrom (isPausedC : Bool) (tasksC : List VipTask)
    (gw : ℕ → Except String String) (i : ℕ) (tasks : List VipTask) :
    List VipTask × ℕ × Bool :=
  if h : i < tasksC.length then
    if isPausedC then (tasks, i, false)
    else
      let task := tasksC.get ⟨i, h⟩
      if task.status = VipStatus.completed then runBatchFrom isPausedC tasksC gw (i + 1) tasks
      else
        let tasks1 := setTaskById task.id (fun t => { t with status := VipStatus.generating }) tasks
        let tasks2 :=
          match gw i with
          | Except.ok url =>
            setTaskById task.id
              (fun t => { t with status := VipStatus.completed, imageUrl := some url }) tasks1
          | Except.error e =>
            setTaskById task.id
              (fun t => { t with status := VipStatus.failed, error := some e }) tasks1
        runBatchFrom isPausedC tasksC gw (i + 1) tasks2
  else (tasks, 0, false)
termination_by tasksC.length - i

/-- One invocation of `processGenerationQueue`: the early pause check, then
the loop from the saved `generationIndexRef.current`. -/
def processGenerationQueue (isPausedC : Bool) (tasksC : List VipTask)
    (gw : ℕ → Except String String) (cursor : ℕ) : List VipTask × ℕ × Bool :=
  if isPausedC then (tasksC, cursor, false)
  else runBatchFrom isPausedC tasksC gw cursor tasksC

/-- Scheduler state of the main task queue: the pending tasks, the
`isProcessing` flag, and the number of gateway generation calls currently
outstanding. -/
structure QueueState where
  queue : List Task
  processing : Bool
  outstanding : ℕ
deriving DecidableEq, Repr

/-- Transitions of the task-queue driver (source: `processQueue` and
`enqueueTask`).  A task is dispatched only when the flag is clear and the
queue non-empty; completion (the `finally` block) dequeues the head and
clears the flag. -/
inductive QStep : QueueState → QueueState → Prop
  | enqueue (s : QueueState) (task : Task) :
      QStep s { s with queue := s.queue ++ [task] }
  | dispatch (s : QueueState) (hp : s.processing = false) (hq : s.queue ≠ []) :
      QStep s { s with processing := true, outstanding := s.outstanding + 1 }
  | finish (s : QueueState) (ho : 0 < s.outstanding) :
      QStep s { queue := s.queue.drop 1, processing := false, outstanding := s.outstanding - 1 }

/-- States reachable by the task queue from an idle start. -/
inductive QReachable : QueueState → Prop
  | init : QReachable { queue := [], processing := false, outstanding := 0 }
  | step {s s' : QueueState} : QReachable s → QStep s s' → QReachable s'

/-- VipMode state relevant to out-of-band single regeneration: the task
list, the `isGenerating` flag of the batch loop, and the ids whose
single-regeneration gateway calls are outstanding. -/
structure VipState where
  tasks : List VipTask
  isGenerating : Bool
  inFlight : List ℕ
deriving DecidableEq, Repr

/-- Transitions of the VipMode single-regeneration subsystem (source:
`handleGenerateSingleTask`, `handleGenerateAll` and the end of the batch
loop).  `startSingle` requires only that the task exists and that the batch
loop is not running; nothing records that another single regeneration is
already in flight. -/
inductive VStep : VipState → VipState → Prop
  | startSingle (s : VipState) (taskId : ℕ) (task : VipTask)
      (hfind : s.tasks.find? (fun t => decide (t.id = taskId)) = some task)
      (hgen : s.isGenerating = false) :
      VStep s
        { s with
          tasks :=
            setTaskById taskId
              (fun t => { t with status := VipStatus.generating, error := none }) s.tasks
          inFlight := taskId :: s.inFlight }
  | finishOk (s : VipState) (taskId : ℕ) (url : String) (hmem : taskId ∈ s.inFlight) :
      VStep s
        { s with
          tasks :=
            setTaskById taskId
              (fun t => { t with status := VipStatus.completed, imageUrl := some url }) s.tasks
          inFlight := s.inFlight.erase taskId }
  | finishErr (s : VipState) (taskId : ℕ) (e : String) (hmem : taskId ∈ s.inFlight) :
      VStep s
        { s with
          tasks :=
            setTaskById taskId
              (fun t => { t with status := VipStatus.failed, error := some e }) s.tasks
          inFlight := s.inFlight.erase taskId }
  | batchBegin (s : VipState) :
      VStep s { s with isGenerating := true }
  | batchEnd (s : VipState) :
      VStep s { s with isGenerating := false }

/-- VipMode states reachable from a freshly analyzed document. -/
inductive VReachable : VipState → Prop
  | init (ps : List (String × String)) :
      VReachable { tasks := analyzedTasks ps, isGenerating := false, inFlight := [] }
  | step {s s' : VipState} : VReachable s → VStep s s' → VReachable s'

/-- Boolean test for carrying a given task id. -/
def isTaskItem (t : String) (img : ImageItem) : Bool :=
  decide (img.taskId = some t)

/-- Boolean test for a completed artifact of a given task. -/
def isCompletedTaskItem (t : String) (img : ImageItem) : Bool :=
  decide (img.taskId = some t ∧ img.status = ImageStatus.completed ∧ img.url.isSome = true)

/-- Boolean test for a still-generating item of a given task. -/
def isGeneratingTaskItem (t : String) (img : ImageItem) : Bool :=
  decide (img.taskId = some t ∧ img.status = ImageStatus.generating)

/-- Sample two-image task used for concrete evaluations. -/
def sampleTask : Task :=
  { id := "t", contentPrompt := "a cat", numImages := 2, aspectRatio := AspectRatio.r16x9 }

/-- Gallery holding the two freshly generating placeholders of `sampleTask`. -/
def sampleGroups : List ImageGroup :=
  startGeneratingTask "t" (enqueueTaskGroups "d" sampleTask [])

/-- The two generating placeholder items inside `sampleGroups`. -/
def samplePlaceholders : List ImageItem :=
  allImages sampleGroups

/-- Sample three-image task used for concrete evaluations. -/
def sampleTask3 : Task :=
  { id := "t", contentPrompt := "a cat", numImages := 3, aspectRatio := AspectRatio.r16x9 }

/-- Gallery holding the three freshly generating placeholders of `sampleTask3`. -/
def sampleGroups3 : List ImageGroup :=
  startGeneratingTask "t" (enqueueTaskGroups "d" sampleTask3 [])

/-- A generating item with progress 0, as produced by `startProgress`. -/
def tickItem0 : ImageItem :=
  { id := "t-0", name := "生成中...", status := ImageStatus.generating, progress := some 0,
    taskId := some "t", contentPrompt := "a cat" }

/-- Gateway stub whose call for index `i` succeeds with a distinct url. -/
def gwBatch : ℕ → Except String String :=
  fun i => Except.ok ("url" ++ toString i)

/-- Two pending VIP tasks as produced by analyzing a two-prompt document. -/
def batchTasks2 : List VipTask :=
  analyzedTasks [("BG-01-01", "a forest scene"), ("BG-01-02", "a castle")]

/-- VipMode state reached after two overlapping single regenerations were
dispatched. -/
def vipBothGenerating : VipState :=
  { tasks :=
      [{ id := 0, name := "BG-01-01", prompt := "a forest scene",
         status := VipStatus.generating },
       { id := 1, name := "BG-01-02", prompt := "a castle",
         status := VipStatus.generating }]
    isGenerating := false
    inFlight := [1, 0] }

theorem allImages_cons (g : ImageGroup) (gs : List ImageGroup) :
    allImages (g :: gs) = g.images ++ allImages gs := rfl

theorem allImages_updateItems (t : String) (f : ImageItem → ImageItem)
    (groups : List ImageGroup) :
    allImages (updateItems t f groups) =
      (allImages groups).map fun img => if img.taskId = some t then f img else img := by
  induction groups with
  | nil => rfl
  | cons g gs ih =>
    simp only [updateItems, List.map_cons] at ih ⊢
    rw [allImages_cons, allImages_cons, List.map_append, ih]

theorem countP_allImages_updateItems (t : String) (f : ImageItem → ImageItem)
    (P : ImageItem → Bool) (hP : ∀ img, P (f img) = P img) (groups : List ImageGroup) :
    (allImages (updateItems t f groups)).countP P = (allImages groups).countP P := by
  rw [allImages_updateItems, List.countP_map]
  apply List.countP_congr
  intro img _
  by_cases h : img.taskId = some t <;> simp [Function.comp, h, hP]

theorem mem_allImages_updateItems {t : String} {f : ImageItem → ImageItem}
    {groups : List ImageGroup} {img : ImageItem}
    (h : img ∈ allImages (updateItems t f groups)) :
    ∃ img0 ∈ allImages groups, img = if img0.taskId = some t then f img0 else img0 := by
  rw [allImages_updateItems] at h
  obtain ⟨img0, hmem, heq⟩ := List.mem_map.mp h
  exact ⟨img0, hmem, heq.symm⟩

theorem allImages_filter_nonempty (groups : List ImageGroup) :
    allImages (groups.filter fun g => decide (0 < g.images.length)) = allImages groups := by
  induction groups with
  | nil => rfl
  | cons g gs ih =>
    rw [List.filter_cons]
    by_cases h : 0 < g.images.length
    · simp [h, allImages_cons, ih]
    · have hnil : g.images = [] := by
        cases hgi : g.images with
        | nil => rfl
        | cons a l => rw [hgi] at h; simp at h
      simp [hnil, allImages_cons, ih]

/-- C9: in the text-only batched path, a requested aspect ratio of 3:2 is
sent to the backend as 4:3, 16:9 and 9:16 pass through unchanged, and the
backend request configuration never carries the literal value 3:2. -/
theorem C9_aspect_ratio_mapping :
    (∀ n : ℕ, (generateImagesConfig n AspectRatio.r3x2).aspectRatio = "4:3") ∧
    (∀ n : ℕ, (generateImagesConfig n AspectRatio.r16x9).aspectRatio = "16:9") ∧
    (∀ n : ℕ, (generateImagesConfig n AspectRatio.r9x16).aspectRatio = "9:16") ∧
    (∀ (n : ℕ) (ar : AspectRatio), (generateImagesConfig n ar).aspectRatio ≠ "3:2") := by
  refine ⟨fun _ => rfl, fun _ => rfl, fun _ => rfl, fun _ ar => ?_⟩
  cases ar <;> simp [generateImagesConfig, mapAspectRatio]

/-- C10: when the given indices do not identify an existing gallery image,
`handleDeleteImage` leaves the trash untouched, removes no image from the
gallery, and, whenever the gallery satisfies the no-empty-group invariant,
returns the gallery verbatim. -/
theorem C10_delete_invalid_indices (gallery trash : List ImageGroup)
    (groupIdx imageIdx : ℕ) (dateString : String)
    (hinv : ((gallery[groupIdx]?).bind fun g => g.images[imageIdx]?) = none) :
    ((handleDeleteImage gallery trash groupIdx imageIdx dateString).2 = trash) ∧
    (allImages (handleDeleteImage gallery trash groupIdx imageIdx dateString).1
        = allImages gallery) ∧
    (noEmptyGroups gallery →
      (handleDeleteImage gallery trash groupIdx imageIdx dateString).1 = gallery) := by
  have hmap :
      (gallery.mapIdx fun gIdx g =>
          if gIdx = groupIdx then { g with images := g.images.eraseIdx imageIdx } else g)
        = gallery := by
    apply List.ext_getElem
    · simp
    · intro i h1 h2
      rw [List.getElem_mapIdx]
      by_cases hi : i = groupIdx
      · subst hi
        have hsome : gallery[i]? = some gallery[i] := List.getElem?_eq_getElem h2
        rw [hsome] at hinv
        simp only [Option.some_bind] at hinv
        have hlen : gallery[i].images.length ≤ imageIdx := by
          by_contra hlt
          push_neg at hlt
          rw [List.getElem?_eq_getElem hlt] at hinv
          exact Option.some_ne_none _ hinv
        simp [List.eraseIdx_of_length_le hlen]
      · simp [hi]
  refine ⟨?_, ?_, fun hne => ?_⟩
  · simp [handleDeleteImage, hinv]
  · simp only [handleDeleteImage, hinv]
    rw [hmap]
    exact allImages_filter_nonempty gallery
  · simp only [handleDeleteImage, hinv]
    rw [hmap, List.filter_eq_self]
    intro g hg
    have := hne g hg
    cases hgi : g.images with
    | nil => exact absurd hgi this
    | cons a l => simp [hgi]

theorem jsOrElse_self (s : String) : jsOrElse (some s) s = s := by
  simp [jsOrElse]

/-- C5 counterexample: with one prompt and a gateway response list of the
same cardinality whose single entry is the empty string, `translateAll`
keeps the original prompt instead of replacing it by the translated (empty)
prompt, refuting the claimed equivalence. -/
theorem C5_counterexample :
    ((["" ] : List String).length = (["你好"] : List String).length) ∧
    handleTranslateAll ["你好"] [""] = ["你好"] ∧
    handleTranslateAll ["你好"] [""] ≠ [""] := by
  refine ⟨rfl, ?_, ?_⟩ <;> decide

/-- C5 (amended): on a cardinality mismatch every prompt is left exactly as
it was; when the cardinalities agree, prompt `i` becomes the translated
prompt `i` unless that translation is the empty string, in which case the
original prompt is kept (the JavaScript or-else fallback). -/
theorem C5_translate_fallback (prompts translatedResponse : List String) :
    (translatedResponse.length ≠ prompts.length →
        handleTranslateAll prompts translatedResponse = prompts) ∧
    (translatedResponse.length = prompts.length →
        ∀ i, i < prompts.length →
          (handleTranslateAll prompts translatedResponse)[i]?
            = some (jsOrElse translatedResponse[i]? (prompts.getD i ""))) := by
  constructor
  · intro hne
    by_cases hp : prompts = []
    · subst hp
      simp [handleTranslateAll]
    · have htr : translatePromptsToEnglish prompts translatedResponse = prompts := by
        simp [translatePromptsToEnglish, List.isEmpty_iff, hp, hne]
      simp only [handleTranslateAll, htr]
      apply List.ext_getElem
      · simp
      · intro i h1 h2
        simp only [List.getElem_map, List.getElem_range]
        rw [List.getElem?_eq_getElem h2]
        have hgetD : prompts.getD i "" = prompts[i] := by
          simp [List.getD_eq_getElem?_getD, List.getElem?_eq_getElem h2]
        rw [hgetD]
        exact jsOrElse_self _
  · intro heq i hi
    have htr : translatePromptsToEnglish prompts translatedResponse = translatedResponse := by
      by_cases hp : prompts = []
      · subst hp
        have hr : translatedResponse = [] := List.length_eq_zero.mp (by simpa using heq)
        simp [translatePromptsToEnglish, hr]
      · simp [translatePromptsToEnglish, List.isEmpty_iff, hp, heq]
    simp only [handleTranslateAll, htr]
    rw [List.getElem?_map, List.getElem?_range hi]
    rfl

/-- C5 witness: a concrete mismatch keeps both prompts, and a concrete
match rewrites prompt 0 through the or-else fallback. -/
theorem C5_translate_fallback_witness :
    ((["only one"] : List String).length ≠ (["甲", "乙"] : List String).length ∧
      handleTranslateAll ["甲", "乙"] ["only one"] = ["甲", "乙"]) ∧
    ((["x", "y"] : List String).length = (["甲", "乙"] : List String).length ∧
      (handleTranslateAll ["甲", "乙"] ["x", "y"])[0]?
        = some (jsOrElse (["x", "y"] : List String)[0]?
            ((["甲", "乙"] : List String).getD 0 ""))) :=
  ⟨⟨by decide, (C5_translate_fallback ["甲", "乙"] ["only one"]).1 (by decide)⟩,
    ⟨by decide, (C5_translate_fallback ["甲", "乙"] ["x", "y"]).2 (by decide) 0 (by decide)⟩⟩

/-- C4 (code bug): one invocation of `processGenerationQueue` reads the
`isPaused` binding captured by its closure when it was created, which is
necessarily `false` (the driving effect only invokes the callback when the
component is not paused).  A pause click while an item is in flight rebinds
`isPaused` for later renders but is invisible to the running invocation, so
both in-loop pause checks are dead: starting from two pending tasks the
loop processes the second item after the first resolves — instead of saving
`cursor = 1` and returning — and finally resets the cursor to 0. -/
theorem C4_pause_has_no_effect :
    processGenerationQueue false batchTasks2 gwBatch 0 =
      ([{ id := 0, name := "BG-01-01", prompt := "a forest scene",
          status := VipStatus.completed, imageUrl := some "url0" },
        { id := 1, name := "BG-01-02", prompt := "a castle",
          status := VipStatus.completed, imageUrl := some "url1" }], 0, false) := by
  simp [processGenerationQueue, runBatchFrom, batchTasks2, analyzedTasks, gwBatch, setTaskById]
  exact ⟨rfl, rfl⟩

theorem progressTick_iterate (t : String) :
    ∀ (n : ℕ) (img : ImageItem) (p : ℚ), img.progress = some p →
      img.status = ImageStatus.generating → img.taskId = some t →
      Nat.iterate (progressTick t) n img
        = { img with progress := some (Nat.iterate tickAmount n p) } := by
  intro n
  induction n with
  | zero =>
    intro img p hp hs ht
    cases img
    simp_all
  | succ n ih =>
    intro img p hp hs ht
    rw [Function.iterate_succ_apply, Function.iterate_succ_apply]
    have hgd : img.progress.getD 0 = p := by rw [hp]; rfl
    by_cases hlt : p < 95
    · have htick : progressTick t img = { img with progress := some (tickAmount p) } := by
        unfold progressTick
        rw [hgd, if_pos ⟨ht, hs, hlt⟩]
        unfold tickAmount
        rw [if_pos hlt]
      rw [htick]
      exact ih _ (tickAmount p) rfl hs ht
    · have htick : progressTick t img = img := by
        unfold progressTick
        rw [hgd, if_neg]
        intro hc
        exact hlt hc.2.2
      have hta : tickAmount p = p := by
        unfold tickAmount
        rw [if_neg hlt]
      rw [htick, hta]
      exact ih img p hp hs ht

/-- C3 counterexample: starting from progress 0, 42 ticks of the estimator
drive the progress of a still-generating item to exactly 95 — the clamp
`min(current + increment, 95)` is attained — refuting the claim that the
progress never reaches 95 while the item is in flight. -/
theorem C3_counterexample :
    (Nat.iterate (progressTick "t") 42 tickItem0).progress = some 95 ∧
    (Nat.iterate (progressTick "t") 42 tickItem0).status = ImageStatus.generating := by
  have h := progressTick_iterate "t" 42 tickItem0 0 rfl rfl rfl
  rw [h]
  refine ⟨?_, rfl⟩
  show some (Nat.iterate tickAmount 42 0) = some 95
  have h95 : Nat.iterate tickAmount 42 0 = (95 : ℚ) := by
    simp only [Function.iterate_succ, Function.iterate_zero, Function.comp_apply, id_eq]
    norm_num [tickAmount, min_def, max_def]
  rw [h95]

/-- C3 (amended): the tick keeps progress non-decreasing and clamped at 95
(it adds exactly max(1, (95 − current)/15) whenever that stays within the
clamp, and may reach exactly 95, after which it stops advancing); at
completion `stopProgress` writes exactly 100 into every item of the task,
then clears progress to undefined after the decay delay. -/
theorem C3_progress_estimator (t : String) (img : ImageItem)
    (groups : List ImageGroup) :
    (img.progress.getD 0 ≤ (progressTick t img).progress.getD 0) ∧
    (img.progress.getD 0 ≤ 95 → (progressTick t img).progress.getD 0 ≤ 95) ∧
    (img.progress.getD 0 + max 1 ((95 - img.progress.getD 0) / 15) ≤ 95 →
      img.taskId = some t → img.status = ImageStatus.generating →
      (progressTick t img).progress.getD 0
        = img.progress.getD 0 + max 1 ((95 - img.progress.getD 0) / 15)) ∧
    (∀ im ∈ allImages (setProgressTask t (some 100) groups),
        im.taskId = some t → im.progress = some 100) ∧
    (∀ im ∈ allImages (setProgressTask t none groups),
        im.taskId = some t → im.progress = none) := by
  have hset : ∀ (p : Option ℚ), ∀ im ∈ allImages (setProgressTask t p groups),
      im.taskId = some t → im.progress = p := by
    intro p im hmem ht
    simp only [setProgressTask] at hmem
    obtain ⟨img0, hmem0, heq⟩ := mem_allImages_updateItems hmem
    by_cases h : img0.taskId = some t
    · rw [heq, if_pos h]
    · rw [heq, if_neg h] at ht
      exact absurd ht h
  set c := img.progress.getD 0 with hc
  have hmax1 : (1 : ℚ) ≤ max 1 ((95 - c) / 15) := le_max_left _ _
  refine ⟨?_, ?_, ?_, hset (some 100), hset none⟩
  · unfold progressTick
    by_cases hcond : img.taskId = some t ∧ img.status = ImageStatus.generating ∧
        img.progress.getD 0 < 95
    · rw [if_pos hcond]
      show c ≤ min (c + max 1 ((95 - c) / 15)) 95
      refine le_min (by linarith) ?_
      exact le_of_lt (hc ▸ hcond.2.2)
    · rw [if_neg hcond]
  · intro hble
    unfold progressTick
    by_cases hcond : img.taskId = some t ∧ img.status = ImageStatus.generating ∧
        img.progress.getD 0 < 95
    · rw [if_pos hcond]
      exact min_le_right _ _
    · rw [if_neg hcond]
      exact hble
  · intro hfit hmt hmg
    have hlt : c < 95 := by linarith
    unfold progressTick
    rw [if_pos ⟨hmt, hmg, hlt⟩]
    show min (c + max 1 ((95 - c) / 15)) 95 = c + max 1 ((95 - c) / 15)
    exact min_eq_left (hc ▸ hfit)

/-- C3 witness: the first tick on a fresh generating item adds exactly
19/3, stays below the clamp, and the completion writes are observed on a
concrete gallery. -/
theorem C3_progress_estimator_witness :
    (tickItem0.progress.getD 0 ≤ (progressTick "t" tickItem0).progress.getD 0) ∧
    ((progressTick "t" tickItem0).progress.getD 0 ≤ 95) ∧
    ((progressTick "t" tickItem0).progress.getD 0
        = tickItem0.progress.getD 0 + max 1 ((95 - tickItem0.progress.getD 0) / 15)) ∧
    (∀ im ∈ allImages (setProgressTask "t" (some 100) sampleGroups),
        im.taskId = some "t" → im.progress = some 100) ∧
    (∀ im ∈ allImages (setProgressTask "t" none sampleGroups),
        im.taskId = some "t" → im.progress = none) := by
  have h := C3_progress_estimator "t" tickItem0 sampleGroups
  exact ⟨h.1, h.2.1 (by norm_num [tickItem0]),
    h.2.2.1 (by norm_num [tickItem0, max_def]) rfl rfl, h.2.2.2.1, h.2.2.2.2⟩

/-- C6 counterexample: from a freshly analyzed two-task state, two
out-of-band single regenerations may be dispatched back to back — the guard
in `handleGenerateSingleTask` only checks the batch loop's `isGenerating`
flag, which single regeneration never sets — reaching a state in which two
VipTasks hold status=generating and two gateway calls are outstanding. -/
theorem C6_counterexample :
    VReachable vipBothGenerating ∧
    vipBothGenerating.tasks.countP (fun t => decide (t.status = VipStatus.generating)) = 2 ∧
    vipBothGenerating.inFlight.length = 2 := by
  refine ⟨?_, by decide, by decide⟩
  have h0 := VReachable.init [("BG-01-01", "a forest scene"), ("BG-01-02", "a castle")]
  have h1 := VReachable.step h0
    (VStep.startSingle _ 0
      { id := 0, name := "BG-01-01", prompt := "a forest scene", status := VipStatus.pending }
      rfl rfl)
  have h2 := VReachable.step h1
    (VStep.startSingle _ 1
      { id := 1, name := "BG-01-02", prompt := "a castle", status := VipStatus.pending }
      rfl rfl)
  exact h2

/-- C6 (amended): the TaskQueue enforces single flight — in every reachable
scheduler state at most one generation call is outstanding, and one is
outstanding only while `isProcessing` is set; the BatchRunner blocks single
regeneration while the batch loop is running (no step taken with
`isGenerating = true` dispatches a new single-regeneration call), but it
does not serialize out-of-band single regenerations against each other, so
two VipTasks can be generating simultaneously (see the counterexample). -/
theorem C6_single_flight :
    (∀ s : QueueState, QReachable s →
        s.outstanding ≤ 1 ∧ (s.outstanding = 1 → s.processing = true)) ∧
    (∀ s s' : VipState, VStep s s' → s.isGenerating = true →
        s'.inFlight.length ≤ s.inFlight.length) := by
  constructor
  · intro s hs
    induction hs with
    | init => exact ⟨by decide, fun h => absurd h (by decide)⟩
    | step hr hstep ih =>
      rename_i s s'
      cases hstep with
      | enqueue task => exact ih
      | dispatch hp hq =>
        refine ⟨?_, fun _ => rfl⟩
        show s.outstanding + 1 ≤ 1
        have h2 := ih.2
        by_cases ho : s.outstanding = 1
        · have hpt := h2 ho
          rw [hp] at hpt
          exact absurd hpt (by simp)
        · have h1 := ih.1
          omega
      | finish ho =>
        have h1 := ih.1
        refine ⟨?_, fun h => ?_⟩
        · show s.outstanding - 1 ≤ 1
          omega
        · exfalso
          have h' : s.outstanding - 1 = 1 := h
          omega
  · intro s s' hstep hgen
    cases hstep with
    | startSingle taskId task hfind hgenF =>
      rw [hgen] at hgenF
      exact absurd hgenF (by simp)
    | finishOk taskId url hmem =>
      exact (s.inFlight.erase_sublist taskId).length_le
    | finishErr taskId e hmem =>
      exact (s.inFlight.erase_sublist taskId).length_le
    | batchBegin => exact le_refl _
    | batchEnd => exact le_refl _

/-- C6 witness: the idle initial queue state satisfies the invariant, and a
concrete finishing step during a running batch does not grow the set of
outstanding single-regeneration calls. -/
theorem C6_single_flight_witness :
    (({ queue := [], processing := false, outstanding := 0 } : QueueState).outstanding ≤ 1 ∧
      (({ queue := [], processing := false, outstanding := 0 } : QueueState).outstanding = 1 →
        ({ queue := [], processing := false, outstanding := 0 } : QueueState).processing = true)) ∧
    (({ tasks := [], isGenerating := true, inFlight := [] } : VipState).inFlight.length
      ≤ ({ tasks := [], isGenerating := true, inFlight := [0] } : VipState).inFlight.length) :=
  ⟨C6_single_flight.1 _ QReachable.init,
    C6_single_flight.2 _ _ (VStep.finishOk _ 0 "u" (by decide)) rfl⟩

/-- C2: when the gateway call fails — and a zero-artifact response is
reported as a failure by the gateway wrapper, as the third conjunct states —
every placeholder of the task ends failed carrying the same error message,
and all of them remain present (the count of items carrying the task id is
unchanged). -/
theorem C2_failure_marks_all (t err : String) (groups : List ImageGroup) (N : ℕ)
    (hN : (allImages groups).countP (isTaskItem t) = N) :
    ((allImages (finishTaskFailure t err groups)).countP (isTaskItem t) = N) ∧
    (∀ img ∈ allImages (finishTaskFailure t err groups), img.taskId = some t →
        img.status = ImageStatus.failed ∧ img.error = some err) ∧
    (∀ callResults : List (Option String), callResults.filterMap id = [] →
        generateStyledImagesRef callResults = Except.error noArtifactMsg) := by
  refine ⟨?_, ?_, ?_⟩
  · unfold finishTaskFailure setProgressTask failTask
    rw [countP_allImages_updateItems t (fun img => { img with progress := none })
          (isTaskItem t) (fun _ => rfl),
        countP_allImages_updateItems t (fun img => { img with progress := some 100 })
          (isTaskItem t) (fun _ => rfl),
        countP_allImages_updateItems t
          (fun img => { img with status := ImageStatus.failed, error := some err })
          (isTaskItem t) (fun _ => rfl)]
    exact hN
  · intro img hmem ht
    unfold finishTaskFailure setProgressTask failTask at hmem
    obtain ⟨i2, hm2, he2⟩ := mem_allImages_updateItems hmem
    obtain ⟨i3, hm3, he3⟩ := mem_allImages_updateItems hm2
    obtain ⟨i4, hm4, he4⟩ := mem_allImages_updateItems hm3
    by_cases h4 : i4.taskId = some t
    · have h3 : i3 = { i4 with status := ImageStatus.failed, error := some err } := by
        rw [he4, if_pos h4]
      have h3t : i3.taskId = some t := by rw [h3]; exact h4
      have h2 : i2 = { i3 with progress := some 100 } := by rw [he3, if_pos h3t]
      have h2t : i2.taskId = some t := by rw [h2]; exact h3t
      have h1 : img = { i2 with progress := none } := by rw [he2, if_pos h2t]
      rw [h1, h2, h3]
      exact ⟨rfl, rfl⟩
    · have h3 : i3 = i4 := by rw [he4, if_neg h4]
      have h2 : i2 = i3 := by rw [he3, h3, if_neg h4]
      have h1 : img = i2 := by rw [he2, h2, h3, if_neg h4]
      rw [h1, h2, h3] at ht
      exact absurd ht h4
  · intro callResults hempty
    simp [generateStyledImagesRef, hempty]

/-- C2 witness: failing a concrete two-placeholder task keeps both items,
marks both failed with the shared message, and the empty-artifact gateway
response is an error. -/
theorem C2_failure_marks_all_witness :
    ((allImages (finishTaskFailure "t" "quota" sampleGroups)).countP (isTaskItem "t") = 2) ∧
    (∀ img ∈ allImages (finishTaskFailure "t" "quota" sampleGroups), img.taskId = some "t" →
        img.status = ImageStatus.failed ∧ img.error = some "quota") ∧
    (∀ callResults : List (Option String), callResults.filterMap id = [] →
        generateStyledImagesRef callResults = Except.error noArtifactMsg) :=
  C2_failure_marks_all "t" "quota" sampleGroups 2 (by decide)

theorem assignArtifact_no_match (task : Task) (fsd : String) (img : ImageItem)
    (arts : List String) (h : ¬ img.taskId = some task.id) :
    assignArtifact task fsd img arts = (img, arts) := by
  unfold assignArtifact
  rw [if_neg h]

theorem assignArtifact_match_nil (task : Task) (fsd : String) (img : ImageItem)
    (h : img.taskId = some task.id) :
    assignArtifact task fsd img [] = (img, []) := by
  simp [assignArtifact, popLast, h]

theorem assignArtifact_match (task : Task) (fsd : String) (img : ImageItem)
    (arts : List String) (h : img.taskId = some task.id) (hne : arts ≠ []) :
    assignArtifact task fsd img arts
      = (completeImage task fsd img (arts.getLast hne), arts.dropLast) := by
  simp [assignArtifact, popLast, h, List.getLast?_eq_getLast_of_ne_nil hne]

theorem assignArtifacts_nil_arts (task : Task) (fsd : String) (imgs : List ImageItem) :
    assignArtifacts task fsd imgs [] = (imgs, []) := by
  induction imgs with
  | nil => rfl
  | cons img imgs ih =>
    by_cases hm : img.taskId = some task.id
    · simp [assignArtifacts, assignArtifact_match_nil task fsd img hm, ih]
    · simp [assignArtifacts, assignArtifact_no_match task fsd img [] hm, ih]

theorem assignArtifacts_no_match (task : Task) (fsd : String) (imgs : List ImageItem)
    (arts : List String) (h : ∀ img ∈ imgs, ¬ img.taskId = some task.id) :
    assignArtifacts task fsd imgs arts = (imgs, arts) := by
  induction imgs generalizing arts with
  | nil => rfl
  | cons img imgs ih =>
    have hh := h img (List.mem_cons_self img imgs)
    have ht : ∀ i ∈ imgs, ¬ i.taskId = some task.id :=
      fun i hi => h i (List.mem_cons_of_mem img hi)
    simp [assignArtifacts, assignArtifact_no_match task fsd img arts hh, ih arts ht]

theorem assignArtifacts_spec (task : Task) (fsd : String) (imgs : List ImageItem) :
    ∀ arts : List String,
      (∀ img ∈ imgs, img.taskId = some task.id → img.status = ImageStatus.generating) →
      ((assignArtifacts task fsd imgs arts).2.length
          = arts.length - min (imgs.countP (isTaskItem task.id)) arts.length) ∧
      (((assignArtifacts task fsd imgs arts).1.filter notGenerating).countP
            (isCompletedTaskItem task.id)
          = min (imgs.countP (isTaskItem task.id)) arts.length) ∧
      (((assignArtifacts task fsd imgs arts).1.filter notGenerating).countP
            (isTaskItem task.id)
          = min (imgs.countP (isTaskItem task.id)) arts.length) := by
  induction imgs with
  | nil =>
    intro arts h
    simp [assignArtifacts]
  | cons img imgs ih =>
    intro arts h
    have hhead := h img (List.mem_cons_self img imgs)
    have htail : ∀ i ∈ imgs, i.taskId = some task.id → i.status = ImageStatus.generating :=
      fun i hi => h i (List.mem_cons_of_mem img hi)
    by_cases hm : img.taskId = some task.id
    · have hgen : img.status = ImageStatus.generating := hhead hm
      have hcnt : (img :: imgs).countP (isTaskItem task.id)
          = imgs.countP (isTaskItem task.id) + 1 := by
        simp [List.countP_cons, isTaskItem, hm]
      cases harts : arts with
      | nil =>
        obtain ⟨ih1, ih2, ih3⟩ := ih [] htail
        have hdrop : notGenerating img = false := by
          simp [notGenerating, hgen]
        simp only [assignArtifacts, assignArtifact_match_nil task fsd img hm]
        simp only [List.filter_cons, hdrop, if_false, Bool.false_eq_true]
        refine ⟨?_, ?_, ?_⟩
        · simpa using ih1
        · simpa using ih2
        · simpa using ih3
      | cons a rest =>
        have hne : arts ≠ [] := by rw [harts]; exact List.cons_ne_nil a rest
        rw [← harts]
        have hlen : 0 < arts.length := List.length_pos.mpr hne
        obtain ⟨ih1, ih2, ih3⟩ := ih arts.dropLast htail
        have hc := assignArtifact_match task fsd img arts hm hne
        have hkeep : notGenerating (completeImage task fsd img (arts.getLast hne)) = true := by
          simp [notGenerating, completeImage]
        have hcomp : isCompletedTaskItem task.id
            (completeImage task fsd img (arts.getLast hne)) = true := by
          simp [isCompletedTaskItem, completeImage, hm]
        have htsk : isTaskItem task.id
            (completeImage task fsd img (arts.getLast hne)) = true := by
          simp [isTaskItem, completeImage, hm]
        have hdl : arts.dropLast.length = arts.length - 1 := List.length_dropLast arts
        simp only [assignArtifacts, hc]
        simp only [List.filter_cons, hkeep, if_true, List.countP_cons, hcomp, htsk, hcnt]
        rw [hdl] at ih1 ih2 ih3
        refine ⟨?_, ?_, ?_⟩
        · rw [ih1]; omega
        · rw [ih2]; omega
        · rw [ih3]; omega
    · have hcnt : (img :: imgs).countP (isTaskItem task.id)
          = imgs.countP (isTaskItem task.id) := by
        simp [List.countP_cons, isTaskItem, hm]
      obtain ⟨ih1, ih2, ih3⟩ := ih arts htail
      have hnc : isCompletedTaskItem task.id img = false := by
        simp [isCompletedTaskItem, hm]
      have hnt : isTaskItem task.id img = false := by
        simp [isTaskItem, hm]
      simp only [assignArtifacts, assignArtifact_no_match task fsd img arts hm]
      simp only [List.filter_cons]
      by_cases hng : notGenerating img = true
      · simp only [hng, if_true, List.countP_cons, hnc, hnt, hcnt]
        refine ⟨by simpa using ih1, by simpa using ih2, by simpa using ih3⟩
      · simp only [Bool.not_eq_true] at hng
        simp only [hng, Bool.false_eq_true, if_false, hcnt]
        exact ⟨ih1, ih2, ih3⟩

theorem applySuccess_not_generating (task : Task) (fsd : String) :
    ∀ (groups : List ImageGroup) (arts : List String),
      ∀ img ∈ allImages (applySuccess task fsd groups arts), notGenerating img = true := by
  intro groups
  induction groups with
  | nil =>
    intro arts img h
    simp [applySuccess, allImages] at h
  | cons g gs ih =>
    intro arts img h
    simp only [applySuccess, reconcileGroup] at h
    rw [allImages_cons] at h
    rcases List.mem_append.mp h with h1 | h2
    · exact List.of_mem_filter h1
    · exact ih _ img h2

theorem applySuccess_spec (task : Task) (fsd : String) :
    ∀ (groups : List ImageGroup) (arts : List String),
      (∀ img ∈ allImages groups, img.taskId = some task.id →
          img.status = ImageStatus.generating) →
      ((allImages (applySuccess task fsd groups arts)).countP (isCompletedTaskItem task.id)
          = min ((allImages groups).countP (isTaskItem task.id)) arts.length) ∧
      ((allImages (applySuccess task fsd groups arts)).countP (isTaskItem task.id)
          = min ((allImages groups).countP (isTaskItem task.id)) arts.length) := by
  intro groups
  induction groups with
  | nil =>
    intro arts h
    simp [applySuccess, allImages]
  | cons g gs ih =>
    intro arts h
    have hh : ∀ img ∈ g.images, img.taskId = some task.id →
        img.status = ImageStatus.generating := by
      intro img hi
      exact h img (by rw [allImages_cons]; exact List.mem_append_left _ hi)
    have ht : ∀ img ∈ allImages gs, img.taskId = some task.id →
        img.status = ImageStatus.generating := by
      intro img hi
      exact h img (by rw [allImages_cons]; exact List.mem_append_right _ hi)
    obtain ⟨a1, a2, a3⟩ := assignArtifacts_spec task fsd g.images arts hh
    obtain ⟨i1, i2⟩ := ih (assignArtifacts task fsd g.images arts).2 ht
    have hrhs : (allImages (g :: gs)).countP (isTaskItem task.id)
        = g.images.countP (isTaskItem task.id)
          + (allImages gs).countP (isTaskItem task.id) := by
      rw [allImages_cons, List.countP_append]
    constructor
    · have lhs : (allImages (applySuccess task fsd (g :: gs) arts)).countP
            (isCompletedTaskItem task.id)
          = ((assignArtifacts task fsd g.images arts).1.filter notGenerating).countP
              (isCompletedTaskItem task.id)
            + (allImages (applySuccess task fsd gs
                (assignArtifacts task fsd g.images arts).2)).countP
                (isCompletedTaskItem task.id) := by
        simp only [applySuccess, reconcileGroup]
        rw [allImages_cons, List.countP_append]
      rw [lhs, a2, i1, a1, hrhs]
      omega
    · have lhs : (allImages (applySuccess task fsd (g :: gs) arts)).countP
            (isTaskItem task.id)
          = ((assignArtifacts task fsd g.images arts).1.filter notGenerating).countP
              (isTaskItem task.id)
            + (allImages (applySuccess task fsd gs
                (assignArtifacts task fsd g.images arts).2)).countP
                (isTaskItem task.id) := by
        simp only [applySuccess, reconcileGroup]
        rw [allImages_cons, List.countP_append]
      rw [lhs, a3, i2, a1, hrhs]
      omega

/-- C1: for a task whose N placeholders are all generating, a successful
gateway response of K artifacts (0 < K ≤ N) leaves exactly K items of the
task completed with a url set, exactly K items of the task present at all
(the other N − K placeholders are removed), and no item of the task still
generating, in the gallery state after the queue finishes the task. -/
theorem C1_success_reconciliation (task : Task) (fsd : String)
    (groups : List ImageGroup) (arts : List String) (N K : ℕ)
    (hgen : ∀ img ∈ allImages groups, img.taskId = some task.id →
        img.status = ImageStatus.generating)
    (hN : (allImages groups).countP (isTaskItem task.id) = N)
    (hK : arts.length = K) (hK0 : 0 < K) (hKN : K ≤ N) :
    ((allImages (finishTaskSuccess task fsd groups arts)).countP
        (isCompletedTaskItem task.id) = K) ∧
    ((allImages (finishTaskSuccess task fsd groups arts)).countP (isTaskItem task.id) = K) ∧
    ((allImages (finishTaskSuccess task fsd groups arts)).countP
        (isGeneratingTaskItem task.id) = 0) := by
  obtain ⟨s1, s2⟩ := applySuccess_spec task fsd groups arts hgen
  have hng := applySuccess_not_generating task fsd groups arts
  unfold finishTaskSuccess setProgressTask
  refine ⟨?_, ?_, ?_⟩
  · rw [countP_allImages_updateItems task.id (fun img => { img with progress := none })
          (isCompletedTaskItem task.id) (fun _ => rfl),
        countP_allImages_updateItems task.id (fun img => { img with progress := some 100 })
          (isCompletedTaskItem task.id) (fun _ => rfl),
        s1, hN, hK]
    omega
  · rw [countP_allImages_updateItems task.id (fun img => { img with progress := none })
          (isTaskItem task.id) (fun _ => rfl),
        countP_allImages_updateItems task.id (fun img => { img with progress := some 100 })
          (isTaskItem task.id) (fun _ => rfl),
        s2, hN, hK]
    omega
  · rw [countP_allImages_updateItems task.id (fun img => { img with progress := none })
          (isGeneratingTaskItem task.id) (fun _ => rfl),
        countP_allImages_updateItems task.id (fun img => { img with progress := some 100 })
          (isGeneratingTaskItem task.id) (fun _ => rfl),
        List.countP_eq_zero]
    intro img hmem
    have hni := hng img hmem
    simp only [notGenerating, decide_eq_true_eq] at hni
    simp only [isGeneratingTaskItem, decide_eq_true_eq]
    intro hcontra
    exact hni hcontra.2

/-- C1 witness: a concrete three-placeholder task succeeding with two
artifacts ends with two completed items, two surviving items and no
generating item. -/
theorem C1_success_reconciliation_witness :
    ((allImages (finishTaskSuccess sampleTask3 "style" sampleGroups3 ["u0", "u1"])).countP
        (isCompletedTaskItem sampleTask3.id) = 2) ∧
    ((allImages (finishTaskSuccess sampleTask3 "style" sampleGroups3 ["u0", "u1"])).countP
        (isTaskItem sampleTask3.id) = 2) ∧
    ((allImages (finishTaskSuccess sampleTask3 "style" sampleGroups3 ["u0", "u1"])).countP
        (isGeneratingTaskItem sampleTask3.id) = 0) :=
  C1_success_reconciliation sampleTask3 "style" sampleGroups3 ["u0", "u1"] 3 2
    (by decide) (by decide) (by decide) (by decide) (by decide)

/-- C7 counterexample: a task with two placeholders `t-0`, `t-1` succeeding
with the artifact list `[u0, u1]` assigns `u1` — not `u0` — to the first
placeholder: the success reconciliation consumes the results array from its
tail (`newImages.pop()`) while iterating placeholders from the head, so the
assignment is reversed, refuting the claimed index-aligned mapping. -/
theorem C7_counterexample :
    ((allImages (applySuccess sampleTask "style" sampleGroups ["u0", "u1"]))[0]?).map
        ImageItem.id = some "t-0" ∧
    ((allImages (applySuccess sampleTask "style" sampleGroups ["u0", "u1"]))[0]?).map
        ImageItem.url = some (some "u1") ∧
    ¬ ((allImages (applySuccess sampleTask "style" sampleGroups ["u0", "u1"]))[0]?).map
        ImageItem.url = some (some "u0") := by
  refine ⟨?_, ?_, ?_⟩ <;> decide

/-- C7 (amended): when a group consists of the task's generating
placeholders and the gateway returns K ≤ N artifacts, the reconciliation
pairs the placeholders in traversal order with the artifact list reversed:
placeholder i receives artifact K − 1 − i (destructive tail consumption via
`Array.pop`), and the placeholders beyond the first K are dropped. -/
theorem C7_reverse_assignment (task : Task) (fsd : String) (d : String)
    (imgs : List ImageItem) :
    ∀ arts : List String,
      (∀ img ∈ imgs, img.taskId = some task.id ∧ img.status = ImageStatus.generating) →
      arts.length ≤ imgs.length →
      (reconcileGroup task fsd { date := d, images := imgs } arts).1.images
        = List.zipWith (completeImage task fsd) (imgs.take arts.length) arts.reverse := by
  induction imgs with
  | nil =>
    intro arts hall hlen
    have hnil : arts = [] := List.length_eq_zero.mp (Nat.le_zero.mp (by simpa using hlen))
    subst hnil
    simp [reconcileGroup, assignArtifacts]
  | cons img imgs ih =>
    intro arts hall hlen
    have hh := hall img (List.mem_cons_self img imgs)
    have ht : ∀ i ∈ imgs, i.taskId = some task.id ∧ i.status = ImageStatus.generating :=
      fun i hi => hall i (List.mem_cons_of_mem img hi)
    by_cases hne : arts = []
    · subst hne
      simp only [reconcileGroup, assignArtifacts_nil_arts]
      rw [List.filter_eq_nil_iff.mpr ?hall]
      · simp
      case hall =>
        intro i hi
        have := (hall i hi).2
        simp [notGenerating, this]
    · have hpos : 0 < arts.length := List.length_pos.mpr hne
      have hlen' : arts.length ≤ imgs.length + 1 := by simpa using hlen
      have ihr := ih arts.dropLast ht (by rw [List.length_dropLast]; omega)
      simp only [reconcileGroup] at ihr ⊢
      rw [List.length_dropLast] at ihr
      have hkeep : notGenerating (completeImage task fsd img (arts.getLast hne)) = true := by
        simp [notGenerating, completeImage]
      have hrev : arts.reverse = arts.getLast hne :: arts.dropLast.reverse := by
        conv_lhs => rw [← List.dropLast_append_getLast hne]
        rw [List.reverse_append]
        simp
      have hlen1 : arts.length = (arts.length - 1) + 1 := by omega
      simp only [assignArtifacts, assignArtifact_match task fsd img arts hh.1 hne]
      simp only [List.filter_cons, hkeep, if_true]
      rw [hrev, hlen1, List.take_succ_cons, List.zipWith_cons_cons]
      exact congrArg _ ihr

/-- C7 witness: the amended reverse pairing evaluated on the two concrete
generating placeholders with two artifacts. -/
theorem C7_reverse_assignment_witness :
    (reconcileGroup sampleTask "style" { date := "d", images := samplePlaceholders }
        ["u0", "u1"]).1.images
      = List.zipWith (completeImage sampleTask "style")
          (samplePlaceholders.take (["u0", "u1"] : List String).length)
          (["u0", "u1"] : List String).reverse :=
  C7_reverse_assignment sampleTask "style" "d" samplePlaceholders ["u0", "u1"]
    (by decide) (by decide)

theorem modify_zero_cons {α : Type} (f : α → α) (x : α) (xs : List α) :
    (x :: xs).modify f 0 = f x :: xs := by
  simp [List.modify]

theorem modify_succ_cons {α : Type} (f : α → α) (x : α) (xs : List α) (n : ℕ) :
    (x :: xs).modify f (n + 1) = x :: xs.modify f n := by
  simp [List.modify]

theorem mem_modify {α : Type} (f : α → α) :
    ∀ (l : List α) (n : ℕ) (a : α), a ∈ l.modify f n → a ∈ l ∨ ∃ b ∈ l, a = f b := by
  intro l
  induction l with
  | nil =>
    intro n a h
    cases n <;> simp [List.modify, List.modifyTailIdx, List.modifyHead] at h
  | cons x xs ih =>
    intro n a h
    cases n with
    | zero =>
      rw [modify_zero_cons] at h
      rcases List.mem_cons.mp h with h1 | h2
      · exact Or.inr ⟨x, List.mem_cons_self x xs, h1⟩
      · exact Or.inl (List.mem_cons_of_mem x h2)
    | succ n =>
      rw [modify_succ_cons] at h
      rcases List.mem_cons.mp h with h1 | h2
      · exact Or.inl (h1 ▸ List.mem_cons_self x xs)
      · rcases ih n a h2 with h3 | ⟨b, hb, he⟩
        · exact Or.inl (List.mem_cons_of_mem x h3)
        · exact Or.inr ⟨b, List.mem_cons_of_mem x hb, he⟩

theorem mem_allImages {groups : List ImageGroup} {g : ImageGroup} {img : ImageItem}
    (hg : g ∈ groups) (hi : img ∈ g.images) : img ∈ allImages groups := by
  unfold allImages
  exact List.mem_flatten.mpr ⟨g.images, List.mem_map_of_mem _ hg, hi⟩

theorem noEmptyGroups_filter (groups : List ImageGroup) :
    noEmptyGroups (groups.filter fun g => decide (0 < g.images.length)) := by
  intro g hg
  have hpos := List.of_mem_filter hg
  simp only [decide_eq_true_eq] at hpos
  intro hnil
  rw [hnil] at hpos
  simp at hpos

theorem noEmptyGroups_addToTrash (dateString : String) (img : ImageItem)
    (trash : List ImageGroup) (h : noEmptyGroups trash) :
    noEmptyGroups (addToTrash dateString img trash) := by
  unfold addToTrash
  by_cases hany : trash.any (fun g => decide (g.date = dateString)) = true
  · rw [if_pos hany]
    intro g hg
    obtain ⟨g0, hg0, heq⟩ := List.mem_map.mp hg
    by_cases hd : g0.date = dateString
    · rw [← heq]
      simp [hd]
    · rw [← heq]
      simp only [hd, if_false]
      exact h g0 hg0
  · rw [if_neg hany]
    intro g hg
    rcases List.mem_cons.mp hg with h1 | h2
    · rw [h1]
      simp
    · exact h g h2

theorem noEmptyGroups_prependAtDate (dateString : String) (imgs : List ImageItem)
    (groups : List ImageGroup) (hne : imgs ≠ []) (h : noEmptyGroups groups) :
    noEmptyGroups (prependAtDate dateString imgs groups) := by
  unfold prependAtDate
  cases groups.findIdx? (fun g => decide (g.date = dateString)) with
  | none =>
    intro g hg
    rcases List.mem_cons.mp hg with h1 | h2
    · rw [h1]
      simpa using hne
    · exact h g h2
  | some i =>
    intro g hg
    rcases mem_modify _ groups i g hg with h1 | ⟨b, hb, he⟩
    · exact h g h1
    · rw [he]
      intro hx
      rcases List.append_eq_nil.mp hx with ⟨h1, _⟩
      exact hne h1

theorem noEmptyGroups_updateItems (t : String) (f : ImageItem → ImageItem)
    (groups : List ImageGroup) (h : noEmptyGroups groups) :
    noEmptyGroups (updateItems t f groups) := by
  intro g hg
  obtain ⟨g0, hg0, heq⟩ := List.mem_map.mp hg
  rw [← heq]
  intro hx
  exact h g0 hg0 (List.map_eq_nil_iff.mp hx)

theorem reconcileGroup_untouched (task : Task) (fsd : String) (g : ImageGroup)
    (arts : List String)
    (hnm : ∀ img ∈ g.images, ¬ img.taskId = some task.id)
    (hng : ∀ img ∈ g.images, img.status ≠ ImageStatus.generating) :
    reconcileGroup task fsd g arts = (g, arts) := by
  unfold reconcileGroup
  rw [assignArtifacts_no_match task fsd g.images arts hnm]
  show (({ g with images := g.images.filter notGenerating } : ImageGroup), arts) = (g, arts)
  rw [List.filter_eq_self.mpr ?hall]
  case hall =>
    intro img hi
    simp [notGenerating, hng img hi]

theorem reconcileGroup_nonempty (task : Task) (fsd : String) (g : ImageGroup)
    (arts : List String) (hne : g.images ≠ []) (hart : arts ≠ [])
    (hgm : ∀ img ∈ g.images, img.status = ImageStatus.generating →
        img.taskId = some task.id) :
    (reconcileGroup task fsd g arts).1.images ≠ [] := by
  unfold reconcileGroup
  cases himgs : g.images with
  | nil => exact absurd himgs hne
  | cons img rest =>
    have himem : img ∈ g.images := by rw [himgs]; exact List.mem_cons_self _ _
    by_cases hm : img.taskId = some task.id
    · simp only [assignArtifacts, assignArtifact_match task fsd img arts hm hart]
      have hkeep : notGenerating (completeImage task fsd img (arts.getLast hart)) = true := by
        simp [notGenerating, completeImage]
      simp [List.filter_cons, hkeep]
    · have hngen : img.status ≠ ImageStatus.generating := by
        intro hg
        exact hm (hgm img himem hg)
      simp only [assignArtifacts, assignArtifact_no_match task fsd img arts hm]
      have hkeep : notGenerating img = true := by simp [notGenerating, hngen]
      simp [List.filter_cons, hkeep]

theorem applySuccess_untouched (task : Task) (fsd : String) :
    ∀ (gs : List ImageGroup) (arts : List String),
      (∀ g ∈ gs, ∀ img ∈ g.images,
          ¬ img.taskId = some task.id ∧ img.status ≠ ImageStatus.generating) →
      applySuccess task fsd gs arts = gs := by
  intro gs
  induction gs with
  | nil => intro arts _; rfl
  | cons g gs ih =>
    intro arts h
    have hh := h g (List.mem_cons_self g gs)
    have ht := fun g' hg' => h g' (List.mem_cons_of_mem g hg')
    simp only [applySuccess]
    rw [reconcileGroup_untouched task fsd g arts (fun i hi => (hh i hi).1)
      (fun i hi => (hh i hi).2)]
    rw [ih arts ht]

theorem applySuccess_noEmpty (task : Task) (fsd : String) :
    ∀ (groups : List ImageGroup) (arts : List String),
      noEmptyGroups groups → arts ≠ [] →
      (∀ img ∈ allImages groups, img.status = ImageStatus.generating →
          img.taskId = some task.id) →
      groups.countP (fun g => g.images.any (isTaskItem task.id)) ≤ 1 →
      noEmptyGroups (applySuccess task fsd groups arts) := by
  intro groups
  induction groups with
  | nil =>
    intro arts _ _ _ _ g hg
    simp [applySuccess] at hg
  | cons g gs ih =>
    intro arts hne hart hgen hcnt g' hg'
    have hgne : g.images ≠ [] := hne g (List.mem_cons_self g gs)
    have hgsne : noEmptyGroups gs := fun x hx => hne x (List.mem_cons_of_mem g hx)
    have hgenh : ∀ img ∈ g.images, img.status = ImageStatus.generating →
        img.taskId = some task.id := by
      intro img hi
      exact hgen img (by rw [allImages_cons]; exact List.mem_append_left _ hi)
    have hgent : ∀ img ∈ allImages gs, img.status = ImageStatus.generating →
        img.taskId = some task.id := by
      intro img hi
      exact hgen img (by rw [allImages_cons]; exact List.mem_append_right _ hi)
    simp only [applySuccess] at hg'
    rcases List.mem_cons.mp hg' with h1 | h2
    · rw [h1]
      exact reconcileGroup_nonempty task fsd g arts hgne hart hgenh
    · by_cases hm : g.images.any (isTaskItem task.id) = true
      · have hcnt0 : gs.countP (fun x => x.images.any (isTaskItem task.id)) = 0 := by
          rw [List.countP_cons] at hcnt
          simp only [hm, if_true] at hcnt
          omega
        have htail : ∀ g'' ∈ gs, ∀ img ∈ g''.images,
            ¬ img.taskId = some task.id ∧ img.status ≠ ImageStatus.generating := by
          intro g'' hg'' img hi
          have hno : ¬ (g''.images.any (isTaskItem task.id) = true) :=
            List.countP_eq_zero.mp hcnt0 g'' hg''
          have hnm : ¬ img.taskId = some task.id := by
            intro hx
            exact hno (List.any_eq_true.mpr ⟨img, hi, by simp [isTaskItem, hx]⟩)
          exact ⟨hnm, fun hgx => hnm (hgent img (mem_allImages hg'' hi) hgx)⟩
        rw [applySuccess_untouched task fsd gs _ htail] at h2
        exact hgsne g' h2
      · have hnm : ∀ img ∈ g.images, ¬ img.taskId = some task.id := by
          intro img hi hx
          exact hm (List.any_eq_true.mpr ⟨img, hi, by simp [isTaskItem, hx]⟩)
        have hng : ∀ img ∈ g.images, img.status ≠ ImageStatus.generating := by
          intro img hi hgx
          exact hnm img hi (hgenh img hi hgx)
        rw [reconcileGroup_untouched task fsd g arts hnm hng] at h2
        have hcnt' : gs.countP (fun x => x.images.any (isTaskItem task.id)) ≤ 1 := by
          rw [List.countP_cons] at hcnt
          omega
        exact ih arts hgsne hart hgent hcnt' g' h2

/-- C8: the trash/gallery mutations prune every group whose image list
became empty — deletion, restoration and permanent deletion never leave an
empty group in either collection — and the partial-success removal of
unassigned placeholders cannot create an empty group either, because under
the queue's single-flight discipline every generating item belongs to the
current task, those placeholders sit in a single group, and a successful
response carries at least one artifact, which completes the group's first
placeholder. -/
theorem C8_empty_groups_pruned :
    (∀ (gallery trash : List ImageGroup) (gi ii : ℕ) (ds : String), noEmptyGroups trash →
        noEmptyGroups (handleDeleteImage gallery trash gi ii ds).1 ∧
        noEmptyGroups (handleDeleteImage gallery trash gi ii ds).2) ∧
    (∀ (gallery trash : List ImageGroup) (ti ii : ℕ) (ds : String), noEmptyGroups gallery →
        noEmptyGroups (handleRestoreImage gallery trash ti ii ds).1 ∧
        noEmptyGroups (handleRestoreImage gallery trash ti ii ds).2) ∧
    (∀ (trash : List ImageGroup) (ti ii : ℕ),
        noEmptyGroups (handlePermanentlyDeleteImage trash ti ii)) ∧
    (∀ (task : Task) (fsd : String) (groups : List ImageGroup) (arts : List String),
        noEmptyGroups groups → arts ≠ [] →
        (∀ img ∈ allImages groups, img.status = ImageStatus.generating →
            img.taskId = some task.id) →
        groups.countP (fun g => g.images.any (isTaskItem task.id)) ≤ 1 →
        noEmptyGroups (finishTaskSuccess task fsd groups arts)) := by
  refine ⟨?_, ?_, ?_, ?_⟩
  · intro gallery trash gi ii ds htr
    constructor
    · unfold handleDeleteImage
      cases gallery[gi]?.bind fun g => g.images[ii]? with
      | none => exact noEmptyGroups_filter _
      | some img => exact noEmptyGroups_filter _
    · unfold handleDeleteImage
      cases gallery[gi]?.bind fun g => g.images[ii]? with
      | none => exact htr
      | some img => exact noEmptyGroups_addToTrash ds img trash htr
  · intro gallery trash ti ii ds hgal
    constructor
    · unfold handleRestoreImage
      cases trash[ti]?.bind fun g => g.images[ii]? with
      | none => exact hgal
      | some img => exact noEmptyGroups_prependAtDate ds [img] gallery (by simp) hgal
    · unfold handleRestoreImage
      cases trash[ti]?.bind fun g => g.images[ii]? with
      | none => exact noEmptyGroups_filter _
      | some img => exact noEmptyGroups_filter _
  · intro trash ti ii
    exact noEmptyGroups_filter _
  · intro task fsd groups arts h1 h2 h3 h4
    unfold finishTaskSuccess setProgressTask
    exact noEmptyGroups_updateItems _ _ _
      (noEmptyGroups_updateItems _ _ _ (applySuccess_noEmpty task fsd groups arts h1 h2 h3 h4))

/-- C8 witness: the four pruning parts evaluated on concrete collections. -/
theorem C8_empty_groups_pruned_witness :
    (noEmptyGroups (handleDeleteImage sampleGroups [] 0 0 "del").1 ∧
      noEmptyGroups (handleDeleteImage sampleGroups [] 0 0 "del").2) ∧
    (noEmptyGroups (handleRestoreImage sampleGroups [] 0 0 "d").1 ∧
      noEmptyGroups (handleRestoreImage sampleGroups [] 0 0 "d").2) ∧
    noEmptyGroups (handlePermanentlyDeleteImage [] 0 0) ∧
    noEmptyGroups (finishTaskSuccess sampleTask "style" sampleGroups ["u0"]) :=
  ⟨C8_empty_groups_pruned.1 sampleGroups [] 0 0 "del"
      (fun g hg => absurd hg (List.not_mem_nil g)),
    C8_empty_groups_pruned.2.1 sampleGroups [] 0 0 "d"
      (by decide : ∀ g ∈ sampleGroups, g.images ≠ []),
    C8_empty_groups_pruned.2.2.1 [] 0 0,
    C8_empty_groups_pruned.2.2.2 sampleTask "style" sampleGroups ["u0"]
      (by decide : ∀ g ∈ sampleGroups, g.images ≠ []) (by simp) (by decide) (by decide)⟩

/-- C10 witness: deleting at an out-of-range index on a concrete gallery
changes nothing. -/
theorem C10_delete_invalid_indices_witness :
    ((handleDeleteImage sampleGroups [] 0 5 "del").2 = []) ∧
    (allImages (handleDeleteImage sampleGroups [] 0 5 "del").1 = allImages sampleGroups) ∧
    ((handleDeleteImage sampleGroups [] 0 5 "del").1 = sampleGroups) := by
  have h := C10_delete_invalid_indices sampleGroups [] 0 5 "del" (by decide)
  exact ⟨h.1, h.2.1, h.2.2 (by decide : ∀ g ∈ sampleGroups, g.images ≠ [])⟩

end HeyIt
